import Mathlib

/-!
Verification development for the word-wave particle engine.

The definitions below are a shallow embedding of the TypeScript sources
`src/shader-gen.ts`, `src/effects.ts` and `src/index.ts` of the word-wave
repository.  JavaScript numbers are modelled by `ℚ`; the transcendental
host functions (`Math.cos`, `Math.sin`, `Math.PI`) and DOM-provided data
(text measurement, the simplex-noise sampler, canvas geometry) are passed
in as explicit parameters, since the embedded code only pipes their
results around.  JavaScript string templates become explicit string
concatenations, `Array.prototype.join` becomes `joinSep`, and plain
JavaScript objects used as string-keyed records become association lists
with in-place overwrite (`recordSet`), which preserves first-insertion
key order exactly as JS objects do for non-index keys.  Functions that can
throw are embedded in `Except String`.
-/

namespace WordWave


/-- `Array.prototype.join(sep)` on a list of strings. -/
def joinSep (sep : String) : List String → String
  | [] => ""
  | [x] => x
  | x :: xs => x ++ sep ++ joinSep sep xs

/-- The `SIMPLEX_NOISE_GLSL` template literal of `shader-gen.ts` (the
gradient-noise function body spliced into generated vertex shaders). -/
def SIMPLEX_NOISE_GLSL : String :=
  "\n// Simplex 3D noise — ashima/webgl-noise (MIT license)\n// https://github.com/ashima/webgl-noise\nvec3 mod289(vec3 x) \x7b return x - floor(x * (1.0 / 289.0)) * 289.0; \x7d\nvec4 mod289(vec4 x) \x7b return x - floor(x * (1.0 / 289.0)) * 289.0; \x7d\nvec4 permute(vec4 x) \x7b return mod289(((x * 34.0) + 10.0) * x); \x7d\nvec4 taylorInvSqrt(vec4 r) \x7b return 1.79284291400159 - 0.85373472095314 * r; \x7d\n\nfloat snoise(vec3 v) \x7b\n  const vec2 C = vec2(1.0 / 6.0, 1.0 / 3.0);\n  const vec4 D = vec4(0.0, 0.5, 1.0, 2.0);\n\n  vec3 i  = floor(v + dot(v, C.yyy));\n  vec3 x0 = v - i + dot(i, C.xxx);\n\n  vec3 g = step(x0.yzx, x0.xyz);\n  vec3 l = 1.0 - g;\n  vec3 i1 = min(g.xyz, l.zxy);\n  vec3 i2 = max(g.xyz, l.zxy);\n\n  vec3 x1 = x0 - i1 + C.xxx;\n  vec3 x2 = x0 - i2 + C.yyy;\n  vec3 x3 = x0 - D.yyy;\n\n  i = mod289(i);\n  vec4 p = permute(permute(permute(\n    i.z + vec4(0.0, i1.z, i2.z, 1.0))\n    + i.y + vec4(0.0, i1.y, i2.y, 1.0))\n    + i.x + vec4(0.0, i1.x, i2.x, 1.0));\n\n  float n_ = 0.142857142857;\n  vec3 ns = n_ * D.wyz - D.xzx;\n\n  vec4 j = p - 49.0 * floor(p * ns.z * ns.z);\n\n  vec4 x_ = floor(j * ns.z);\n  vec4 y_ = floor(j - 7.0 * x_);\n\n  vec4 x = x_ * ns.x + ns.yyyy;\n  vec4 y = y_ * ns.x + ns.yyyy;\n  vec4 h = 1.0 - abs(x) - abs(y);\n\n  vec4 b0 = vec4(x.xy, y.xy);\n  vec4 b1 = vec4(x.zw, y.zw);\n\n  vec4 s0 = floor(b0) * 2.0 + 1.0;\n  vec4 s1 = floor(b1) * 2.0 + 1.0;\n  vec4 sh = -step(h, vec4(0.0));\n\n  vec4 a0 = b0.xzyw + s0.xzyw * sh.xxyy;\n  vec4 a1 = b1.xzyw + s1.xzyw * sh.zzww;\n\n  vec3 p0 = vec3(a0.xy, h.x);\n  vec3 p1 = vec3(a0.zw, h.y);\n  vec3 p2 = vec3(a1.xy, h.z);\n  vec3 p3 = vec3(a1.zw, h.w);\n\n  vec4 norm = taylorInvSqrt(vec4(dot(p0, p0), dot(p1, p1), dot(p2, p2), dot(p3, p3)));\n  p0 *= norm.x;\n  p1 *= norm.y;\n  p2 *= norm.z;\n  p3 *= norm.w;\n\n  vec4 m = max(0.5 - vec4(dot(x0, x0), dot(x1, x1), dot(x2, x2), dot(x3, x3)), 0.0);\n  m = m * m;\n  return 105.0 * dot(m * m, vec4(dot(p0, x0), dot(p1, x1), dot(p2, x2), dot(p3, x3)));\n\x7d\n"

/-- The static fragment shader `FRAG` of `shader-gen.ts`. -/
def FRAG : String :=
  "#version 300 es\nprecision highp float;\n\nuniform sampler2D u_atlas;\n\nin vec2 v_uv;\nin float v_opacity;\n\nout vec4 outColor;\n\nvoid main() \x7b\n  vec4 tex = texture(u_atlas, v_uv);\n  outColor = tex * v_opacity;\n\x7d\n"

/-- The fixed part of the vertex-shader template before the uniform
declarations (`shader-gen.ts`, `generateShaders`). -/
def VERTEX_HEADER : String :=
  "#version 300 es\nprecision highp float;\n\nin vec2 a_position;\n\nin vec2 a_basePosition;\nin vec2 a_size;\nin vec2 a_center;\nin vec4 a_uv;\nin float a_opacity;\n\nuniform mat4 u_projection;\n"

/-- The fixed part of the vertex-shader template between the optional noise
function and the effect blocks. -/
def VERTEX_MAIN : String :=
  "out vec2 v_uv;\nout float v_opacity;\n\nvoid main() \x7b\n  vec2 pos = a_basePosition;\n  vec2 displacement = vec2(0.0);\n"

/-- The fixed tail of the vertex-shader template after the effect blocks. -/
def VERTEX_FOOTER : String :=
  "\n\n  vec2 world = (pos + displacement) - a_center + a_position * a_size;\n  gl_Position = u_projection * vec4(world, 0.0, 1.0);\n  v_uv = mix(a_uv.xy, a_uv.zw, a_position);\n  v_opacity = a_opacity;\n\x7d\n"

/-- Effect descriptors (`src/effects.ts`).  Optional numeric fields are
`Option ℚ` (absent = `none`); a `glsl` effect's `params` object is an
association list in declaration order (an absent `params` is `[]`, which
behaves identically to `\x7b\x7d` in both the generator and the extractor). -/
inductive Effect where
  | noise (frequency amplitude speed yScale : Option ℚ)
  | wave (direction propagation amplitude speed : Option ℚ)
  | pulse (centerX centerY frequency amplitude speed : Option ℚ)
  | glsl (params : List (String × ℚ)) (code : String)
deriving DecidableEq

/-- Whether `e.type` is the noise tag. -/
def Effect.isNoise : Effect → Bool
  | .noise _ _ _ _ => true
  | _ => false

/-- Whether `e.type` is the glsl tag. -/
def Effect.isGlsl : Effect → Bool
  | .glsl _ _ => true
  | _ => false

/-- `NOISE_DEFAULTS` of `src/effects.ts`. -/
structure NoiseDefaults where
  frequency : ℚ
  amplitude : ℚ
  speed : ℚ
  yScale : ℚ

def NOISE_DEFAULTS : NoiseDefaults :=
  { frequency := 0.008, amplitude := 10, speed := 0.01, yScale := 0.6 }

/-- `WAVE_DEFAULTS` of `src/effects.ts`. -/
structure WaveDefaults where
  direction : ℚ
  propagation : ℚ
  amplitude : ℚ
  speed : ℚ

def WAVE_DEFAULTS : WaveDefaults :=
  { direction := 225, propagation := 0.03, amplitude := 15, speed := 2.0 }

/-- `PULSE_DEFAULTS` of `src/effects.ts`. -/
structure PulseDefaults where
  centerX : ℚ
  centerY : ℚ
  frequency : ℚ
  amplitude : ℚ
  speed : ℚ

def PULSE_DEFAULTS : PulseDefaults :=
  { centerX := 0.5, centerY := 0.5, frequency := 0.05, amplitude := 10, speed := 1.0 }

/-- An emitted effect block: its scoped GLSL text and declared uniforms. -/
structure EffectBlock where
  glsl : String
  uniforms : List String
deriving DecidableEq

/-- `noiseBlock(i)` of `shader-gen.ts`. -/
def noiseBlock (i : Nat) : EffectBlock :=
  let p := "u_fx" ++ Nat.repr i
  { uniforms := [p ++ "_freq", p ++ "_amp", p ++ "_speed", p ++ "_yscale"],
    glsl :=
      "\n  \x7b // noise effect " ++ Nat.repr i ++ "\n    float n = snoise(vec3(pos * " ++ p
        ++ "_freq, u_time * " ++ p ++ "_speed));\n    displacement += vec2(n * " ++ p
        ++ "_amp, n * " ++ p ++ "_yscale * " ++ p ++ "_amp);\n  \x7d" }

/-- `waveBlock(i)` of `shader-gen.ts`. -/
def waveBlock (i : Nat) : EffectBlock :=
  let p := "u_fx" ++ Nat.repr i
  { uniforms := [p ++ "_dircos", p ++ "_dirsin", p ++ "_prop", p ++ "_amp", p ++ "_speed"],
    glsl :=
      "\n  \x7b // wave effect " ++ Nat.repr i ++ "\n    float dist = pos.x * " ++ p
        ++ "_dircos + pos.y * " ++ p ++ "_dirsin;\n    float phase = dist * " ++ p
        ++ "_prop - u_time * " ++ p
        ++ "_speed;\n    float w = max(0.0, sin(phase));\n    float push = w * w * " ++ p
        ++ "_amp;\n    displacement += vec2(push * " ++ p ++ "_dircos, push * " ++ p
        ++ "_dirsin);\n  \x7d" }

/-- `pulseBlock(i)` of `shader-gen.ts`. -/
def pulseBlock (i : Nat) : EffectBlock :=
  let p := "u_fx" ++ Nat.repr i
  { uniforms := [p ++ "_cx", p ++ "_cy", p ++ "_freq", p ++ "_amp", p ++ "_speed"],
    glsl :=
      "\n  \x7b // pulse effect " ++ Nat.repr i ++ "\n    vec2 center = vec2(" ++ p
        ++ "_cx * u_resolution.x, " ++ p
        ++ "_cy * u_resolution.y);\n    vec2 delta = pos - center;\n    float dist = length(delta);\n    float phase = dist * "
        ++ p ++ "_freq - u_time * " ++ p
        ++ "_speed;\n    float ring = max(0.0, sin(phase));\n    vec2 dir = dist > 0.0 ? delta / dist : vec2(0.0);\n    displacement += dir * ring * ring * "
        ++ p ++ "_amp;\n  \x7d" }

/-- `glslBlock(effect, i)` of `shader-gen.ts`: the uniforms are the keys of
the caller-supplied `params` object, not auto-namespaced. -/
def glslBlock (params : List (String × ℚ)) (code : String) (i : Nat) : EffectBlock :=
  { uniforms := params.map Prod.fst,
    glsl :=
      "\n  \x7b // custom glsl effect " ++ Nat.repr i
        ++ "\n    float time = u_time;\n    vec2 d = vec2(0.0);\n    " ++ code
        ++ "\n    displacement += d;\n  \x7d" }

/-- `buildBlock(effect, index)` of `shader-gen.ts`.  The `Effect` union is
closed, so the `default: throw` arm of the source switch is unreachable. -/
def buildBlock (e : Effect) (i : Nat) : EffectBlock :=
  match e with
  | .noise _ _ _ _ => noiseBlock i
  | .wave _ _ _ _ => waveBlock i
  | .pulse _ _ _ _ _ => pulseBlock i
  | .glsl params code => glslBlock params code i

/-- `effects.map((e, i) => buildBlock(e, i))`, with an explicit start index
so that proofs can recurse over the list. -/
def buildBlocks : Nat → List Effect → List EffectBlock
  | _, [] => []
  | i, e :: rest => buildBlock e i :: buildBlocks (i + 1) rest

/-- The mutable accumulation state of the collection loop in `generateShaders`:
the `seen` set, the `allUniforms` list and the `uniformDecls` list. -/
structure UniState where
  seen : List String
  all : List String
  decls : List String
deriving DecidableEq

/-- The `reservedUniforms` set of `generateShaders`, in insertion order. -/
def reservedUniforms : List String :=
  ["u_time", "u_resolution", "u_projection", "u_atlas"]

/-- The message of the error thrown on a reserved-name collision. -/
def collisionMessage (name : String) : String :=
  "Effect uniform \"" ++ name ++ "\" collides with a built-in uniform. "
    ++ "Reserved names: " ++ joinSep ", " reservedUniforms

/-- One iteration of the inner `for (const name of block.uniforms)` loop of
`generateShaders`: throw on a reserved name, skip an already-seen name,
otherwise record the name and its declaration. -/
def addUniform (st : UniState) (name : String) : Except String UniState :=
  if reservedUniforms.contains name then
    .error (collisionMessage name)
  else if st.seen.contains name then
    .ok st
  else
    .ok { seen := st.seen ++ [name], all := st.all ++ [name],
          decls := st.decls ++ ["uniform float " ++ name ++ ";"] }

/-- The inner loop of `generateShaders` over one block's uniform names. -/
def addUniforms : UniState → List String → Except String UniState
  | st, [] => .ok st
  | st, n :: ns =>
    match addUniform st n with
    | .error e => .error e
    | .ok st' => addUniforms st' ns

/-- The outer loop of `generateShaders` over the effect blocks. -/
def addBlocks : UniState → List EffectBlock → Except String UniState
  | st, [] => .ok st
  | st, b :: bs =>
    match addUniforms st b.uniforms with
    | .error e => .error e
    | .ok st' => addBlocks st' bs

/-- The initial accumulation state of `generateShaders`: `u_time` and
`u_resolution` are pre-seeded into `seen`, `allUniforms` and the
declaration list. -/
def initUniState : UniState :=
  { seen := ["u_time", "u_resolution"],
    all := ["u_time", "u_resolution"],
    decls := ["uniform float u_time;", "uniform vec2 u_resolution;"] }

/-- The `GeneratedShader` result record of `shader-gen.ts`. -/
structure GeneratedShader where
  vertexSource : String
  fragmentSource : String
  uniformNames : List String
deriving DecidableEq

/-- The vertex-shader template literal of `generateShaders`, assembled from
the uniform declarations, the optional noise function and the blocks. -/
def vertexSourceOf (uniformDecls : List String) (needsNoise : Bool)
    (blocks : List EffectBlock) : String :=
  VERTEX_HEADER ++ joinSep "\n" uniformDecls ++ "\n\n"
    ++ (if needsNoise then SIMPLEX_NOISE_GLSL else "") ++ "\n\n"
    ++ VERTEX_MAIN ++ joinSep "\n" (blocks.map (·.glsl)) ++ VERTEX_FOOTER

/-- The uniform-collection phase of `generateShaders effects`. -/
def genState (effects : List Effect) : Except String UniState :=
  addBlocks initUniState (buildBlocks 0 effects)

/-- `generateShaders(effects)` of `shader-gen.ts`; a thrown `Error` is an
`Except.error` carrying the message. -/
def generateShaders (effects : List Effect) : Except String GeneratedShader :=
  match addBlocks initUniState (buildBlocks 0 effects) with
  | .error e => .error e
  | .ok st =>
    .ok { vertexSource :=
            vertexSourceOf st.decls (effects.any Effect.isNoise) (buildBlocks 0 effects),
          fragmentSource := FRAG,
          uniformNames := st.all }

/-- The flat list of uniform names declared by the effect blocks (each
block's `uniforms`, in block order). -/
def declaredUniformNames (effects : List Effect) : List String :=
  ((buildBlocks 0 effects).map (·.uniforms)).flatten

/-- `values[key] = v` on a plain JS object modelled as an association list:
overwrite in place if the key exists, else append (first-insertion key
order, as JS objects keep for non-index string keys). -/
def recordSet (values : List (String × ℚ)) (key : String) (v : ℚ) : List (String × ℚ) :=
  if values.any (fun p => p.1 = key) then
    values.map (fun p => if p.1 = key then (key, v) else p)
  else
    values ++ [(key, v)]

/-- One iteration of the `extractUniformValues` switch for the effect at
index `i`.  `cosF`, `sinF` and `piVal` model `Math.cos`, `Math.sin` and
`Math.PI` of the host. -/
def applyEffect (cosF sinF : ℚ → ℚ) (piVal : ℚ) (values : List (String × ℚ))
    (i : Nat) : Effect → List (String × ℚ)
  | .noise frequency amplitude speed yScale =>
    let p := "u_fx" ++ Nat.repr i
    let freq := frequency.getD NOISE_DEFAULTS.frequency
    let amp := amplitude.getD NOISE_DEFAULTS.amplitude
    let spd := speed.getD NOISE_DEFAULTS.speed
    let ysc := yScale.getD NOISE_DEFAULTS.yScale
    recordSet (recordSet (recordSet (recordSet values
      (p ++ "_freq") freq) (p ++ "_amp") amp) (p ++ "_speed") spd) (p ++ "_yscale") ysc
  | .wave direction propagation amplitude speed =>
    let p := "u_fx" ++ Nat.repr i
    let dir := direction.getD WAVE_DEFAULTS.direction
    let rad := dir * piVal / 180
    recordSet (recordSet (recordSet (recordSet (recordSet values
      (p ++ "_dircos") (cosF rad)) (p ++ "_dirsin") (sinF rad))
      (p ++ "_prop") (propagation.getD WAVE_DEFAULTS.propagation))
      (p ++ "_amp") (amplitude.getD WAVE_DEFAULTS.amplitude))
      (p ++ "_speed") (speed.getD WAVE_DEFAULTS.speed)
  | .pulse centerX centerY frequency amplitude speed =>
    let p := "u_fx" ++ Nat.repr i
    recordSet (recordSet (recordSet (recordSet (recordSet values
      (p ++ "_cx") (centerX.getD PULSE_DEFAULTS.centerX))
      (p ++ "_cy") (centerY.getD PULSE_DEFAULTS.centerY))
      (p ++ "_freq") (frequency.getD PULSE_DEFAULTS.frequency))
      (p ++ "_amp") (amplitude.getD PULSE_DEFAULTS.amplitude))
      (p ++ "_speed") (speed.getD PULSE_DEFAULTS.speed)
  | .glsl params _ =>
    params.foldl (fun m kv => recordSet m kv.1 kv.2) values

/-- The indexed `for` loop of `extractUniformValues`. -/
def extractGo (cosF sinF : ℚ → ℚ) (piVal : ℚ) :
    Nat → List (String × ℚ) → List Effect → List (String × ℚ)
  | _, values, [] => values
  | i, values, e :: rest =>
    extractGo cosF sinF piVal (i + 1) (applyEffect cosF sinF piVal values i e) rest

/-- `extractUniformValues(effects)` of `shader-gen.ts`: the flat uniform
name-to-value record, as an association list in insertion order. -/
def extractUniformValues (cosF sinF : ℚ → ℚ) (piVal : ℚ)
    (effects : List Effect) : List (String × ℚ) :=
  extractGo cosF sinF piVal 0 [] effects

-- ── Structure of the collected uniform-name list ─────────────────────────────

/-- Invariant of the collection loop: the `seen` set holds exactly the
names already in `allUniforms`. -/
def SeenInv (st : UniState) : Prop := ∀ n, n ∈ st.seen ↔ n ∈ st.all

/-- The shader produced on success (a placeholder on error); lets concrete
hypotheses of the form `generateShaders es = .ok (genOk es)` be discharged
by `rfl`. -/
def genOk (effects : List Effect) : GeneratedShader :=
  match generateShaders effects with
  | .ok g => g
  | .error _ => { vertexSource := "", fragmentSource := "", uniformNames := [] }

-- ── C9 ───────────────────────────────────────────────────────────────────────

/-- The two custom `glsl` effects declaring the same parameter name. -/
def dupEffects : List Effect :=
  [Effect.glsl [("u_dup", 1)] "d = vec2(u_dup, 0.0);",
   Effect.glsl [("u_dup", 2)] "d = vec2(0.0, u_dup);"]

/-- Number of (possibly overlapping) occurrences of `pat` in `l`. -/
def countOccs (pat : List Char) : List Char → Nat
  | [] => 0
  | c :: rest => (if List.isPrefixOf pat (c :: rest) then 1 else 0) + countOccs pat rest

-- ── Occurrence counting used for the dead-code-elimination claim ─────────────

/-- Occurrences of the marker character `S` in a string.  The capital `S`
occurs in the simplex-noise body (`Simplex`, `taylorInvSqrt`) but nowhere in
the fixed vertex-shader template, the wave/pulse blocks, the generated
uniform names or decimal indices. -/
def countS (s : String) : Nat := s.data.count 'S'

/-- The custom `glsl` effect whose caller-supplied code is the simplex body
itself. -/
def snoiseInjection : List Effect := [Effect.glsl [] SIMPLEX_NOISE_GLSL]

-- ── Engine embedding (`src/index.ts`) ────────────────────────────────────────

/-- The `mode` option: per-character or per-word displacement. -/
inductive Mode where
  | character
  | word
deriving DecidableEq

/-- `WordWaveOptions` of `index.ts` (all fields resolved). -/
structure WordWaveOptions where
  words : List String
  frequency : ℚ
  amplitude : ℚ
  speed : ℚ
  spacingX : ℚ
  spacingY : ℚ
  direction : ℚ
  propagation : ℚ
  waveAmplitude : ℚ
  font : String
  respectReducedMotion : Bool
  pauseOffScreen : Bool
  mode : Mode
deriving DecidableEq

/-- `Partial<WordWaveOptions>`: every field optional. -/
structure WordWavePartialOptions where
  words : Option (List String) := none
  frequency : Option ℚ := none
  amplitude : Option ℚ := none
  speed : Option ℚ := none
  spacingX : Option ℚ := none
  spacingY : Option ℚ := none
  direction : Option ℚ := none
  propagation : Option ℚ := none
  waveAmplitude : Option ℚ := none
  font : Option String := none
  respectReducedMotion : Option Bool := none
  pauseOffScreen : Option Bool := none
  mode : Option Mode := none
deriving DecidableEq

/-- `DEFAULT_WORDS` of `index.ts`. -/
def DEFAULT_WORDS : List String := ["No", "Words", "Supplied!"]

/-- The `DEFAULTS` record of `index.ts`. -/
def DEFAULTS : WordWaveOptions :=
  { words := DEFAULT_WORDS, frequency := 0.008, amplitude := 10, speed := 0.01,
    spacingX := 90, spacingY := 20, direction := 225, propagation := 0.03,
    waveAmplitude := 15, font := "14px system-ui, -apple-system, sans-serif",
    respectReducedMotion := true, pauseOffScreen := true, mode := Mode.character }

/-- The constructor's config resolution
`this.config = \x7b ...DEFAULTS, ...options, words: [...(options?.words ?? DEFAULTS.words)] \x7d`:
each present field of `options` overrides the default; the defensive copy of
`words` is the identity here; crucially `??` replaces only a nullish
(absent) `words`, not an empty array. -/
def resolveConfig (options : Option WordWavePartialOptions) : WordWaveOptions :=
  { words := (options.bind (·.words)).getD DEFAULTS.words,
    frequency := (options.bind (·.frequency)).getD DEFAULTS.frequency,
    amplitude := (options.bind (·.amplitude)).getD DEFAULTS.amplitude,
    speed := (options.bind (·.speed)).getD DEFAULTS.speed,
    spacingX := (options.bind (·.spacingX)).getD DEFAULTS.spacingX,
    spacingY := (options.bind (·.spacingY)).getD DEFAULTS.spacingY,
    direction := (options.bind (·.direction)).getD DEFAULTS.direction,
    propagation := (options.bind (·.propagation)).getD DEFAULTS.propagation,
    waveAmplitude := (options.bind (·.waveAmplitude)).getD DEFAULTS.waveAmplitude,
    font := (options.bind (·.font)).getD DEFAULTS.font,
    respectReducedMotion :=
      (options.bind (·.respectReducedMotion)).getD DEFAULTS.respectReducedMotion,
    pauseOffScreen := (options.bind (·.pauseOffScreen)).getD DEFAULTS.pauseOffScreen,
    mode := (options.bind (·.mode)).getD DEFAULTS.mode }

/-- An `AtlasGlyph` sprite record. -/
structure AtlasGlyph where
  sx : ℚ
  sw : ℚ
  cssW : ℚ
  cssHalfW : ℚ
deriving DecidableEq

/-- A particle (`CharParticle` or `WordParticle`, tagged by `kind`). -/
structure Particle where
  kind : Mode
  baseX : ℚ
  baseY : ℚ
  renderX : ℚ
  renderY : ℚ
  opacity : ℚ
  glyph : AtlasGlyph
deriving DecidableEq

/-- The browser's frame scheduler: `requestAnimationFrame` hands out fresh
ids and keeps the set of pending callbacks. -/
structure Scheduler where
  nextId : Nat
  active : List Nat
deriving DecidableEq

def requestAnimationFrame (sc : Scheduler) : Nat × Scheduler :=
  (sc.nextId, { nextId := sc.nextId + 1, active := sc.active ++ [sc.nextId] })

def cancelAnimationFrame (sc : Scheduler) (id : Nat) : Scheduler :=
  { sc with active := sc.active.erase id }

/-- The host environment an engine instance observes: device pixel ratio,
the parent element's bounding rect (absent when the canvas is detached),
whether a 2D context can be acquired, text measurement for the configured
font, the seeded `noise3D` sampler and the host `Math` functions. -/
structure Env where
  dpr : ℚ
  parentRect : Option (ℚ × ℚ)
  ctx2dAvailable : Bool
  measure : String → ℚ
  noise3D : ℚ → ℚ → ℚ → ℚ
  cosF : ℚ → ℚ
  sinF : ℚ → ℚ
  piVal : ℚ

/-- The mutable fields of a `WordWaveEngine` instance that its lifecycle
methods and the particle builder read or write. -/
structure EngineState where
  config : WordWaveOptions
  resolvedOpacity : ℚ
  particles : List Particle
  animationFrameId : Option Nat
  time : ℚ
  isVisible : Bool
  destroyed : Bool
  dpr : ℚ
  canvasW : ℚ
  canvasH : ℚ
  noiseGrid : List ℚ
  gridCols : Nat
  gridRows : Nat
  gridOriginX : ℚ
  gridOriginY : ℚ
  glyphs : List (String × AtlasGlyph)
  hasAtlas : Bool
  hasRenderer : Bool
  hasMeasureCtx : Bool
  hasResizeObserver : Bool
  hasVisibilityObserver : Bool
  sched : Scheduler
deriving DecidableEq

/-- `NOISE_GRID_CELL` of `index.ts`. -/
def NOISE_GRID_CELL : ℚ := 50

/-- JS string coercion applied by `measureText` to a possibly-`undefined`
word (`String(undefined) = "undefined"`). -/
def jsToString : Option String → String
  | none => "undefined"
  | some s => s

/-- One cell of `forEachGridCell`: the selected word (possibly `undefined`
when the word list is empty), its start x, measured width, y and grid
coordinates. -/
structure GridCell where
  word : Option String
  wordStartX : ℚ
  wordWidth : ℚ
  y : ℚ
  row : Nat
  col : Nat
deriving DecidableEq

/-- One emitted display unit of the grid iterators (`onItem` argument). -/
structure GridItem where
  text : Option String
  centerX : ℚ
  y : ℚ
  row : Nat
  col : Nat
deriving DecidableEq

/-- `forEachGridCell` of `index.ts`: the brick grid over the parent rect.
`cols`/`rows` are `Math.ceil(extent / spacing) + 2`; the word index cycles
through the list by `(row * cols + col) % words.length` (an empty list
yields the JS `undefined` element, modelled as `none`). -/
def gridCells (env : Env) (cfg : WordWaveOptions) (w h : ℚ) : List GridCell :=
  let cols := (⌈w / cfg.spacingX⌉ + 2).toNat
  let rows := (⌈h / cfg.spacingY⌉ + 2).toNat
  ((List.range rows).map (fun row =>
    (List.range cols).map (fun col =>
      let offsetX : ℚ := if row % 2 = 0 then 0 else cfg.spacingX / 2
      let wordIndex := (row * cols + col) % cfg.words.length
      let word := cfg.words[wordIndex]?
      let wordWidth := env.measure (jsToString word)
      { word := word,
        wordStartX := (col : ℚ) * cfg.spacingX + offsetX - cfg.spacingX - wordWidth / 2,
        wordWidth := wordWidth,
        y := (row : ℚ) * cfg.spacingY - cfg.spacingY,
        row := row, col := col }))).flatten

/-- The per-character walk of `iterateCharGrid` inside one cell, carrying
the running `charX` cursor. -/
def charWalk (env : Env) (cell : GridCell) : List Char → ℚ → List GridItem
  | [], _ => []
  | c :: cs, charX =>
    let charWidth := env.measure (String.singleton c)
    { text := some (String.singleton c), centerX := charX + charWidth / 2,
      y := cell.y, row := cell.row, col := cell.col }
      :: charWalk env cell cs (charX + charWidth)

/-- `iterateCharGrid`: per-character items.  Iterating `for (const char of
word)` over an `undefined` word (empty word list) throws a `TypeError`. -/
def charItems (env : Env) : List GridCell → Except String (List GridItem)
  | [] => .ok []
  | cell :: rest =>
    match cell.word with
    | none => .error "TypeError: word is not iterable"
    | some word =>
      match charItems env rest with
      | .error e => .error e
      | .ok tail => .ok (charWalk env cell word.data cell.wordStartX ++ tail)

/-- `iterateWordGrid`: one item per cell, centred on the cell (an
`undefined` word is passed through and later misses the glyph lookup). -/
def wordItems : List GridCell → List GridItem
  | [] => []
  | cell :: rest =>
    { text := cell.word, centerX := cell.wordStartX + cell.wordWidth / 2,
      y := cell.y, row := cell.row, col := cell.col } :: wordItems rest

/-- `this.glyphs.get(text)`; a `Map` lookup with an `undefined` key misses. -/
def glyphLookup (glyphs : List (String × AtlasGlyph)) : Option String → Option AtlasGlyph
  | none => none
  | some t => (glyphs.find? (fun p => p.1 = t)).map Prod.snd

/-- The base opacity of a particle: depth noise sampled at the grid
coordinates, scaled into a band above the resolved base opacity. -/
def baseOpacityOf (env : Env) (resolvedOpacity : ℚ) (row col : Nat) : ℚ :=
  let depthNoise := env.noise3D ((col : ℚ) * 0.1) ((row : ℚ) * 0.1) 0
  min 1 (resolvedOpacity + (depthNoise + 1) * (resolvedOpacity * 0.4))

/-- The body of `createParticles` once the measurement context and parent
rect are in hand: size the noise grid, lay out the grid items, skip items
missing from the atlas lookup, build particles and sort them by opacity
ascending. -/
def createParticlesCore (env : Env) (s0 : EngineState) (w h : ℚ) :
    Except String EngineState :=
  let margin := max s0.config.spacingX s0.config.spacingY
  let gridCols := (⌈(w + 2 * margin) / NOISE_GRID_CELL⌉ + 1).toNat
  let gridRows := (⌈(h + 2 * margin) / NOISE_GRID_CELL⌉ + 1).toNat
  let s := { s0 with
    gridOriginX := -margin, gridOriginY := -margin,
    gridCols := gridCols, gridRows := gridRows,
    noiseGrid := List.replicate (gridCols * gridRows) 0 }
  let cells := gridCells env s.config w h
  let itemsE : Except String (List GridItem) :=
    match s.config.mode with
    | Mode.word => .ok (wordItems cells)
    | Mode.character => charItems env cells
  match itemsE with
  | .error e => .error e
  | .ok items =>
    let parts := items.filterMap (fun it =>
      (glyphLookup s.glyphs it.text).map (fun glyph =>
        { kind := s.config.mode, baseX := it.centerX, baseY := it.y,
          renderX := 0, renderY := 0,
          opacity := baseOpacityOf env s.resolvedOpacity it.row it.col,
          glyph := glyph }))
    let sorted := parts.mergeSort (fun a b => decide (a.opacity ≤ b.opacity))
    .ok { s with particles := sorted }

/-- `createParticles` of `index.ts`: reset the particle list, bail out
without a measurement context or parent, then run the grid-building body. -/
def createParticles (env : Env) (s0 : EngineState) : Except String EngineState :=
  let s := { s0 with particles := [] }
  if s.hasMeasureCtx = false then .ok s
  else
    match env.parentRect with
    | none => .ok s
    | some (w, h) => createParticlesCore env s w h

/-- The clamped cell x-index of `sampleNoiseGrid`:
`Math.max(0, Math.min(Math.floor(gx), gridCols - 2))`. -/
def sampleGx0 (s : EngineState) (x : ℚ) : Int :=
  max 0 (min ⌊(x - s.gridOriginX) / NOISE_GRID_CELL⌋ ((s.gridCols : Int) - 2))

/-- The clamped cell y-index of `sampleNoiseGrid`. -/
def sampleGy0 (s : EngineState) (y : ℚ) : Int :=
  max 0 (min ⌊(y - s.gridOriginY) / NOISE_GRID_CELL⌋ ((s.gridRows : Int) - 2))

/-- The base index `i = gy0 * gridCols + gx0` read by `sampleNoiseGrid`
(always nonnegative since both clamped indices are). -/
def sampleIdx (s : EngineState) (x y : ℚ) : Nat :=
  (sampleGy0 s y * (s.gridCols : Int) + sampleGx0 s x).toNat

/-- `sampleNoiseGrid` of `index.ts`: bilinear interpolation among the four
lattice samples at `i`, `i+1`, `i+gridCols`, `i+gridCols+1`. -/
def sampleNoiseGrid (s : EngineState) (x y : ℚ) : ℚ :=
  let gx := (x - s.gridOriginX) / NOISE_GRID_CELL
  let gy := (y - s.gridOriginY) / NOISE_GRID_CELL
  let fx := gx - (sampleGx0 s x : ℚ)
  let fy := gy - (sampleGy0 s y : ℚ)
  let i := sampleIdx s x y
  let top := s.noiseGrid.getD i 0 + (s.noiseGrid.getD (i + 1) 0 - s.noiseGrid.getD i 0) * fx
  let bottom := s.noiseGrid.getD (i + s.gridCols) 0
    + (s.noiseGrid.getD (i + s.gridCols + 1) 0 - s.noiseGrid.getD (i + s.gridCols) 0) * fx
  top + (bottom - top) * fy

/-- The noise-grid refill at the top of each `animate` tick. -/
def fillNoiseGrid (env : Env) (s : EngineState) : EngineState :=
  { s with noiseGrid :=
      ((List.range s.gridRows).map (fun gy =>
        (List.range s.gridCols).map (fun gx =>
          env.noise3D ((s.gridOriginX + (gx : ℚ) * NOISE_GRID_CELL) * s.config.frequency)
            ((s.gridOriginY + (gy : ℚ) * NOISE_GRID_CELL) * s.config.frequency)
            s.time))).flatten }

/-- The per-particle position update of `animate` (host-displacement mode):
interpolated noise plus the one-sided directional wave push. -/
def updateParticlePositions (env : Env) (s : EngineState) : EngineState :=
  let dirRad := s.config.direction * env.piVal / 180
  let dirCos := env.cosF dirRad
  let dirSin := env.sinF dirRad
  { s with particles := s.particles.map (fun p =>
      let noise := sampleNoiseGrid s p.baseX p.baseY
      let dist := p.baseX * dirCos + p.baseY * dirSin
      let phase := dist * s.config.propagation - s.time * 2
      let wave := max 0 (env.sinF phase)
      let push := wave * wave * s.config.waveAmplitude
      { p with
        renderX := p.baseX + noise * s.config.amplitude + push * dirCos,
        renderY := p.baseY + noise * 0.6 * s.config.amplitude + push * dirSin }) }

/-- One synchronous run of the `animate` closure: bail (clearing the handle)
when invisible or destroyed, else refill the grid, recompute positions,
draw (external), advance time and schedule the next frame. -/
def animateFrame (env : Env) (s : EngineState) : EngineState :=
  if s.isVisible = false ∨ s.destroyed = true then
    { s with animationFrameId := none }
  else
    let s := fillNoiseGrid env s
    let s := updateParticlePositions env s
    let s := { s with time := s.time + s.config.speed }
    let idSched := requestAnimationFrame s.sched
    { s with sched := idSched.2, animationFrameId := some idSched.1 }

/-- `startAnimationLoop` of `index.ts`: warn-and-return without any
rendering path or atlas, no-op if already scheduled, else run `animate()`
once (which schedules its successor). -/
def startAnimationLoop (env : Env) (s : EngineState) : EngineState :=
  if s.hasRenderer = false ∧ env.ctx2dAvailable = false then s
  else if s.hasRenderer = false ∧ s.hasAtlas = false then s
  else if s.animationFrameId.isSome then s
  else animateFrame env s

/-- `start()` of `index.ts`. -/
def start (env : Env) (s : EngineState) : EngineState :=
  if s.destroyed = true ∨ s.animationFrameId.isSome then s
  else startAnimationLoop env { s with isVisible := true }

/-- `stop()` of `index.ts`. -/
def stop (s : EngineState) : EngineState :=
  let s := match s.animationFrameId with
    | some id =>
      { s with sched := cancelAnimationFrame s.sched id, animationFrameId := none }
    | none => s
  { s with isVisible := false }

/-- `setupCanvas` of `index.ts` (canvas sizing; the projection upload and
context scaling are external effects). -/
def setupCanvas (env : Env) (s : EngineState) : EngineState :=
  let s := { s with dpr := env.dpr }
  match env.parentRect with
  | none => s
  | some (w, h) => { s with canvasW := w * env.dpr, canvasH := h * env.dpr }

/-- `resize()` of `index.ts`. -/
def resize (env : Env) (s : EngineState) : Except String EngineState :=
  if s.destroyed = true then .ok s
  else createParticles env (setupCanvas env s)

/-- `destroy()` of `index.ts`. -/
def destroy (s : EngineState) : EngineState :=
  let s := stop { s with destroyed := true }
  { s with hasResizeObserver := false, hasVisibilityObserver := false,
           hasRenderer := false, hasAtlas := false, particles := [] }

/-- A concrete engine state exercising the noise-grid bounds. -/
def c10State : EngineState :=
  { config := DEFAULTS, resolvedOpacity := 0.15, particles := [],
    animationFrameId := none, time := 0, isVisible := false, destroyed := false,
    dpr := 1, canvasW := 0, canvasH := 0,
    noiseGrid := [0, 0, 0, 0, 0, 0], gridCols := 3, gridRows := 2,
    gridOriginX := -90, gridOriginY := -90, glyphs := [],
    hasAtlas := false, hasRenderer := false, hasMeasureCtx := false,
    hasResizeObserver := false, hasVisibilityObserver := false,
    sched := { nextId := 0, active := [] } }

/-- A host environment with an attached, 100×100 parent and working
contexts. -/
def hostEnv : Env :=
  { dpr := 1, parentRect := some (100, 100), ctx2dAvailable := true,
    measure := fun _ => 10, noise3D := fun _ _ _ => 0,
    cosF := fun _ => 1, sinF := fun _ => 0, piVal := 3.1415926535 }

/-- A freshly initialised engine state over the given word list, with a
one-sprite atlas lookup. -/
def baseState (ws : List String) : EngineState :=
  { config := { DEFAULTS with words := ws }, resolvedOpacity := 0.15,
    particles := [], animationFrameId := none, time := 0, isVisible := false,
    destroyed := false, dpr := 1, canvasW := 0, canvasH := 0, noiseGrid := [],
    gridCols := 0, gridRows := 0, gridOriginX := 0, gridOriginY := 0,
    glyphs := [("h", { sx := 0, sw := 10, cssW := 10, cssHalfW := 5 })],
    hasAtlas := true, hasRenderer := true, hasMeasureCtx := true,
    hasResizeObserver := false, hasVisibilityObserver := false,
    sched := { nextId := 0, active := [] } }

/-- An engine state whose measurement context is unavailable: particle
creation completes through the diagnostic early-return. -/
def measurelessState : EngineState :=
  { baseState ["hi"] with hasMeasureCtx := false }

-- ── Theorems ────────────────────────────────────────────────────────────────

-- ── Error behaviour of the uniform-collection loop ──────────────────────────

theorem contains_iff_mem {l : List String} {n : String} :
    l.contains n = true ↔ n ∈ l :=
  List.elem_iff

theorem addUniform_error_iff {st : UniState} {n : String} {e : String} :
    addUniform st n = .error e ↔ n ∈ reservedUniforms ∧ e = collisionMessage n := by
  unfold addUniform
  split
  · rename_i h
    rw [contains_iff_mem] at h
    simp [h, eq_comm]
  · rename_i h
    rw [contains_iff_mem] at h
    split <;> simp [h]

theorem addUniform_ok_of_not_reserved (st : UniState) {n : String}
    (h : n ∉ reservedUniforms) : ∃ st', addUniform st n = .ok st' := by
  unfold addUniform
  split
  · rename_i hc
    rw [contains_iff_mem] at hc
    exact absurd hc h
  · split <;> exact ⟨_, rfl⟩

theorem addUniforms_error {ns : List String} :
    ∀ {st e}, addUniforms st ns = .error e →
      ∃ n ∈ ns, n ∈ reservedUniforms ∧ e = collisionMessage n := by
  induction ns with
  | nil => intro st e h; simp [addUniforms] at h
  | cons n ns ih =>
    intro st e h
    unfold addUniforms at h
    cases hu : addUniform st n with
    | error e' =>
      rw [hu] at h
      cases h
      obtain ⟨hr, he⟩ := addUniform_error_iff.mp hu
      exact ⟨n, List.mem_cons_self .., hr, he⟩
    | ok st' =>
      rw [hu] at h
      obtain ⟨m, hm, hr, he⟩ := ih h
      exact ⟨m, List.mem_cons_of_mem _ hm, hr, he⟩

theorem addUniforms_ok_of_disjoint {ns : List String}
    (h : ∀ n ∈ ns, n ∉ reservedUniforms) :
    ∀ st, ∃ st', addUniforms st ns = .ok st' := by
  induction ns with
  | nil => intro st; exact ⟨st, rfl⟩
  | cons n ns ih =>
    intro st
    obtain ⟨st1, h1⟩ := addUniform_ok_of_not_reserved st
      (h n (List.mem_cons_self ..))
    obtain ⟨st2, h2⟩ := ih (fun m hm => h m (List.mem_cons_of_mem _ hm)) st1
    exact ⟨st2, by unfold addUniforms; rw [h1]; exact h2⟩

theorem addUniforms_error_of_mem {ns : List String} {n : String}
    (hn : n ∈ ns) (hr : n ∈ reservedUniforms) :
    ∀ st, ∃ e, addUniforms st ns = .error e := by
  induction ns with
  | nil => cases hn
  | cons m ns ih =>
    intro st
    by_cases hm : m ∈ reservedUniforms
    · refine ⟨collisionMessage m, ?_⟩
      unfold addUniforms
      rw [addUniform_error_iff.mpr ⟨hm, rfl⟩]
    · have hn' : n ∈ ns := by
        rcases List.mem_cons.mp hn with h | h
        · exact absurd (h ▸ hr) hm
        · exact h
      obtain ⟨st1, h1⟩ := addUniform_ok_of_not_reserved st hm
      obtain ⟨e, he⟩ := ih hn' st1
      exact ⟨e, by unfold addUniforms; rw [h1]; exact he⟩

theorem addBlocks_error {bs : List EffectBlock} :
    ∀ {st e}, addBlocks st bs = .error e →
      ∃ n ∈ (bs.map (·.uniforms)).flatten, n ∈ reservedUniforms ∧ e = collisionMessage n := by
  induction bs with
  | nil => intro st e h; simp [addBlocks] at h
  | cons b bs ih =>
    intro st e h
    unfold addBlocks at h
    cases hu : addUniforms st b.uniforms with
    | error e' =>
      rw [hu] at h
      cases h
      obtain ⟨n, hn, hr, he⟩ := addUniforms_error hu
      refine ⟨n, ?_, hr, he⟩
      rw [List.map_cons, List.flatten_cons]
      exact List.mem_append_left _ hn
    | ok st' =>
      rw [hu] at h
      obtain ⟨n, hn, hr, he⟩ := ih h
      refine ⟨n, ?_, hr, he⟩
      rw [List.map_cons, List.flatten_cons]
      exact List.mem_append_right _ hn

theorem addBlocks_ok_of_disjoint {bs : List EffectBlock}
    (h : ∀ n ∈ (bs.map (·.uniforms)).flatten, n ∉ reservedUniforms) :
    ∀ st, ∃ st', addBlocks st bs = .ok st' := by
  induction bs with
  | nil => intro st; exact ⟨st, rfl⟩
  | cons b bs ih =>
    intro st
    have hhead : ∀ n ∈ b.uniforms, n ∉ reservedUniforms := fun n hn =>
      h n (by rw [List.map_cons, List.flatten_cons]; exact List.mem_append_left _ hn)
    have htail : ∀ n ∈ (bs.map (·.uniforms)).flatten, n ∉ reservedUniforms := fun n hn =>
      h n (by rw [List.map_cons, List.flatten_cons]; exact List.mem_append_right _ hn)
    obtain ⟨st1, h1⟩ := addUniforms_ok_of_disjoint hhead st
    obtain ⟨st2, h2⟩ := ih htail st1
    exact ⟨st2, by unfold addBlocks; rw [h1]; exact h2⟩

theorem addBlocks_error_of_mem (bs : List EffectBlock) {n : String}
    (hn : n ∈ (bs.map (·.uniforms)).flatten) (hr : n ∈ reservedUniforms) :
    ∀ st, ∃ e, addBlocks st bs = .error e := by
  induction bs with
  | nil => simp at hn
  | cons b bs ih =>
    intro st
    simp only [List.map_cons, List.flatten_cons, List.mem_append] at hn
    cases hu : addUniforms st b.uniforms with
    | error e => exact ⟨e, by unfold addBlocks; rw [hu]⟩
    | ok st' =>
      rcases hn with hn | hn
      · obtain ⟨e, he⟩ := addUniforms_error_of_mem hn hr st
        rw [he] at hu; cases hu
      · obtain ⟨e, he⟩ := ih hn st'
        exact ⟨e, by unfold addBlocks; rw [hu]; exact he⟩

theorem collisionMessage_infix (name : String) :
    name.data <:+: (collisionMessage name).data := by
  refine ⟨"Effect uniform \"".data,
    ("\" collides with a built-in uniform. " ++ "Reserved names: "
      ++ joinSep ", " reservedUniforms).data, ?_⟩
  simp [collisionMessage, List.append_assoc]

-- ── C1, C2, C5 ───────────────────────────────────────────────────────────────

/-- C1: `generateShaders(effects)` throws an error if and only if some
effect-declared uniform name equals one of the reserved uniform names
(`u_time`, `u_resolution`, `u_projection`, `u_atlas`); it never throws when
every effect-declared name is disjoint from the reserved names, and the
thrown error message names the offending uniform. -/
theorem generateShaders_throws_iff_reserved (effects : List Effect) :
    ((∃ e, generateShaders effects = .error e) ↔
      ∃ name ∈ declaredUniformNames effects, name ∈ reservedUniforms)
    ∧ (∀ e, generateShaders effects = .error e →
        ∃ name ∈ declaredUniformNames effects,
          name ∈ reservedUniforms ∧ e = collisionMessage name ∧ name.data <:+: e.data) := by
  have hmain : ∀ e, generateShaders effects = .error e →
      ∃ name ∈ declaredUniformNames effects,
        name ∈ reservedUniforms ∧ e = collisionMessage name ∧ name.data <:+: e.data := by
    intro e he
    unfold generateShaders at he
    cases hb : addBlocks initUniState (buildBlocks 0 effects) with
    | error e' =>
      rw [hb] at he
      cases he
      obtain ⟨n, hn, hr, hmsg⟩ := addBlocks_error hb
      exact ⟨n, hn, hr, hmsg, hmsg ▸ collisionMessage_infix n⟩
    | ok st => rw [hb] at he; cases he
  refine ⟨⟨?_, ?_⟩, hmain⟩
  · rintro ⟨e, he⟩
    obtain ⟨n, hn, hr, -⟩ := hmain e he
    exact ⟨n, hn, hr⟩
  · rintro ⟨n, hn, hr⟩
    obtain ⟨e, he⟩ := addBlocks_error_of_mem (buildBlocks 0 effects) hn hr initUniState
    exact ⟨e, by unfold generateShaders; rw [he]⟩

theorem generateShaders_throws_iff_reserved_witness :
    ((∃ e, generateShaders [Effect.glsl [("u_atlas", 1)] "d = vec2(0.0);"] = .error e) ↔
      ∃ name ∈ declaredUniformNames [Effect.glsl [("u_atlas", 1)] "d = vec2(0.0);"],
        name ∈ reservedUniforms)
    ∧ ∃ name ∈ declaredUniformNames [Effect.glsl [("u_atlas", 1)] "d = vec2(0.0);"],
        name ∈ reservedUniforms ∧ collisionMessage "u_atlas" = collisionMessage name ∧
          name.data <:+: (collisionMessage "u_atlas").data :=
  ⟨(generateShaders_throws_iff_reserved _).1,
    (generateShaders_throws_iff_reserved _).2 (collisionMessage "u_atlas") rfl⟩

/-- C2: `generateShaders` is a pure, deterministic function of the effect
list: equal inputs yield identical results, in particular byte-identical
vertex and fragment sources and an identical uniform-name list. -/
theorem generateShaders_deterministic (e1 e2 : List Effect) (h : e1 = e2) :
    generateShaders e1 = generateShaders e2 ∧
    ∀ g1 g2, generateShaders e1 = .ok g1 → generateShaders e2 = .ok g2 →
      g1.vertexSource = g2.vertexSource ∧ g1.fragmentSource = g2.fragmentSource ∧
      g1.uniformNames = g2.uniformNames := by
  subst h
  refine ⟨rfl, fun g1 g2 h1 h2 => ?_⟩
  rw [h1] at h2
  cases h2
  exact ⟨rfl, rfl, rfl⟩

theorem generateShaders_deterministic_witness :
    generateShaders [Effect.noise none none none none] =
      generateShaders [Effect.noise none none none none] ∧
    ∀ g1 g2, generateShaders [Effect.noise none none none none] = .ok g1 →
      generateShaders [Effect.noise none none none none] = .ok g2 →
      g1.vertexSource = g2.vertexSource ∧ g1.fragmentSource = g2.fragmentSource ∧
      g1.uniformNames = g2.uniformNames :=
  generateShaders_deterministic _ _ rfl

/-- C5: `extractUniformValues` on the single all-defaults noise effect
returns exactly the documented defaults under the index-0 auto-namespaced
keys (`0.008`, `10`, `0.01`, `0.6`), for any host cosine/sine/pi. -/
theorem extractUniformValues_noise_defaults (cosF sinF : ℚ → ℚ) (piVal : ℚ) :
    extractUniformValues cosF sinF piVal [Effect.noise none none none none] =
      [("u_fx0_freq", 0.008), ("u_fx0_amp", 10), ("u_fx0_speed", 0.01),
        ("u_fx0_yscale", 0.6)] := rfl

-- ── Key set of the extracted record ─────────────────────────────────────────

theorem mem_keys_recordSet {m : List (String × ℚ)} {k a : String} {v : ℚ} :
    a ∈ (recordSet m k v).map Prod.fst ↔ a ∈ m.map Prod.fst ∨ a = k := by
  unfold recordSet
  split
  · rename_i h
    have hk : k ∈ m.map Prod.fst := by
      obtain ⟨p, hp, he⟩ := List.any_eq_true.mp h
      simp only [decide_eq_true_eq] at he
      exact he ▸ List.mem_map_of_mem _ hp
    have keys_eq : (m.map (fun p => if p.1 = k then (k, v) else p)).map Prod.fst
        = m.map Prod.fst := by
      rw [List.map_map]
      apply List.map_congr_left
      intro p _
      by_cases hp : p.1 = k <;> simp [hp]
    rw [keys_eq]
    constructor
    · exact Or.inl
    · rintro (h' | rfl)
      · exact h'
      · exact hk
  · simp

theorem mem_keys_foldl_recordSet (params : List (String × ℚ)) :
    ∀ (values : List (String × ℚ)) (a : String),
      a ∈ (params.foldl (fun m kv => recordSet m kv.1 kv.2) values).map Prod.fst ↔
        a ∈ values.map Prod.fst ∨ a ∈ params.map Prod.fst := by
  induction params with
  | nil => simp
  | cons kv params ih =>
    intro values a
    rw [List.foldl_cons, ih, mem_keys_recordSet]
    simp
    tauto

theorem mem_keys_applyEffect {cosF sinF : ℚ → ℚ} {piVal : ℚ}
    {values : List (String × ℚ)} {i : Nat} {e : Effect} {a : String} :
    a ∈ (applyEffect cosF sinF piVal values i e).map Prod.fst ↔
      a ∈ values.map Prod.fst ∨ a ∈ (buildBlock e i).uniforms := by
  cases e with
  | noise frequency amplitude speed yScale =>
    simp only [applyEffect, buildBlock, noiseBlock, mem_keys_recordSet, List.mem_cons,
      List.not_mem_nil, or_false]
    tauto
  | wave direction propagation amplitude speed =>
    simp only [applyEffect, buildBlock, waveBlock, mem_keys_recordSet, List.mem_cons,
      List.not_mem_nil, or_false]
    tauto
  | pulse centerX centerY frequency amplitude speed =>
    simp only [applyEffect, buildBlock, pulseBlock, mem_keys_recordSet, List.mem_cons,
      List.not_mem_nil, or_false]
    tauto
  | glsl params code =>
    simp only [applyEffect, buildBlock, glslBlock]
    exact mem_keys_foldl_recordSet params values a

theorem mem_keys_extractGo (cosF sinF : ℚ → ℚ) (piVal : ℚ) (effects : List Effect) :
    ∀ (i : Nat) (values : List (String × ℚ)) (a : String),
      a ∈ (extractGo cosF sinF piVal i values effects).map Prod.fst ↔
        a ∈ values.map Prod.fst ∨ a ∈ ((buildBlocks i effects).map (·.uniforms)).flatten := by
  induction effects with
  | nil => intro i values a; simp [extractGo, buildBlocks]
  | cons e rest ih =>
    intro i values a
    show a ∈ (extractGo cosF sinF piVal (i + 1)
        (applyEffect cosF sinF piVal values i e) rest).map Prod.fst ↔ _
    rw [ih, mem_keys_applyEffect]
    show _ ↔ a ∈ values.map Prod.fst ∨
      a ∈ ((buildBlock e i :: buildBlocks (i + 1) rest).map (·.uniforms)).flatten
    rw [List.map_cons, List.flatten_cons, List.mem_append]
    tauto

theorem addUniform_ok_props {st st' : UniState} {n : String} (hInv : SeenInv st)
    (h : addUniform st n = .ok st') :
    SeenInv st' ∧ (∀ a, a ∈ st'.all ↔ a ∈ st.all ∨ a = n)
    ∧ (st.all.Nodup → st'.all.Nodup)
    ∧ ∃ t td, st'.all = st.all ++ t ∧ st'.decls = st.decls ++ td
        ∧ (∀ a ∈ t, a = n ∧ a ∉ reservedUniforms)
        ∧ (∀ d ∈ td, d = "uniform float " ++ n ++ ";") := by
  unfold addUniform at h
  split at h
  · cases h
  · rename_i hres
    rw [contains_iff_mem] at hres
    split at h
    · rename_i hseen
      rw [contains_iff_mem] at hseen
      cases h
      have hmem : n ∈ st.all := (hInv n).mp hseen
      refine ⟨hInv, fun a => ?_, id, [], [], by simp, by simp, by simp, by simp⟩
      constructor
      · exact Or.inl
      · rintro (h' | rfl)
        · exact h'
        · exact hmem
    · rename_i hseen
      rw [contains_iff_mem] at hseen
      cases h
      have hnotall : n ∉ st.all := fun hc => hseen ((hInv n).mpr hc)
      refine ⟨?_, ?_, ?_, [n], ["uniform float " ++ n ++ ";"], rfl, rfl, ?_, by simp⟩
      · intro a
        simp only [List.mem_append, List.mem_singleton]
        exact or_congr_left (hInv a)
      · intro a; simp
      · intro hnd
        simp only [List.nodup_append, List.nodup_singleton, true_and]
        exact ⟨hnd, by simpa using hnotall⟩
      · intro a ha
        rw [List.mem_singleton] at ha
        exact ⟨ha, ha ▸ hres⟩

theorem addUniforms_ok_props {ns : List String} :
    ∀ {st st' : UniState}, SeenInv st → addUniforms st ns = .ok st' →
      SeenInv st' ∧ (∀ a, a ∈ st'.all ↔ a ∈ st.all ∨ a ∈ ns)
      ∧ (st.all.Nodup → st'.all.Nodup)
      ∧ ∃ t td, st'.all = st.all ++ t ∧ st'.decls = st.decls ++ td
          ∧ (∀ a ∈ t, a ∈ ns ∧ a ∉ reservedUniforms)
          ∧ (∀ d ∈ td, ∃ nm ∈ ns, d = "uniform float " ++ nm ++ ";") := by
  induction ns with
  | nil =>
    intro st st' hInv h
    cases h
    exact ⟨hInv, by simp, id, [], [], by simp, by simp, by simp, by simp⟩
  | cons n ns ih =>
    intro st st' hInv h
    unfold addUniforms at h
    cases hu : addUniform st n with
    | error e => rw [hu] at h; cases h
    | ok st1 =>
      rw [hu] at h
      obtain ⟨hInv1, hmem1, hnd1, t1, td1, hall1, hdecls1, ht1, htd1⟩ :=
        addUniform_ok_props hInv hu
      obtain ⟨hInv2, hmem2, hnd2, t2, td2, hall2, hdecls2, ht2, htd2⟩ := ih hInv1 h
      refine ⟨hInv2, ?_, fun hnd => hnd2 (hnd1 hnd), t1 ++ t2, td1 ++ td2, ?_, ?_, ?_, ?_⟩
      · intro a
        rw [hmem2 a, hmem1 a]
        simp only [List.mem_cons]
        tauto
      · rw [hall2, hall1, List.append_assoc]
      · rw [hdecls2, hdecls1, List.append_assoc]
      · intro a ha
        rcases List.mem_append.mp ha with ha | ha
        · obtain ⟨rfl, hr⟩ := ht1 a ha
          exact ⟨List.mem_cons_self .., hr⟩
        · obtain ⟨hin, hr⟩ := ht2 a ha
          exact ⟨List.mem_cons_of_mem _ hin, hr⟩
      · intro d hd
        rcases List.mem_append.mp hd with hd | hd
        · exact ⟨n, List.mem_cons_self .., htd1 d hd⟩
        · obtain ⟨nm, hin, he⟩ := htd2 d hd
          exact ⟨nm, List.mem_cons_of_mem _ hin, he⟩

theorem addBlocks_ok_props {bs : List EffectBlock} :
    ∀ {st st' : UniState}, SeenInv st → addBlocks st bs = .ok st' →
      SeenInv st' ∧ (∀ a, a ∈ st'.all ↔ a ∈ st.all ∨ a ∈ (bs.map (·.uniforms)).flatten)
      ∧ (st.all.Nodup → st'.all.Nodup)
      ∧ ∃ t td, st'.all = st.all ++ t ∧ st'.decls = st.decls ++ td
          ∧ (∀ a ∈ t, a ∈ (bs.map (·.uniforms)).flatten ∧ a ∉ reservedUniforms)
          ∧ (∀ d ∈ td, ∃ nm ∈ (bs.map (·.uniforms)).flatten,
              d = "uniform float " ++ nm ++ ";") := by
  induction bs with
  | nil =>
    intro st st' hInv h
    cases h
    exact ⟨hInv, by simp, id, [], [], by simp, by simp, by simp, by simp⟩
  | cons b bs ih =>
    intro st st' hInv h
    unfold addBlocks at h
    cases hu : addUniforms st b.uniforms with
    | error e => rw [hu] at h; cases h
    | ok st1 =>
      rw [hu] at h
      obtain ⟨hInv1, hmem1, hnd1, t1, td1, hall1, hdecls1, ht1, htd1⟩ :=
        addUniforms_ok_props hInv hu
      obtain ⟨hInv2, hmem2, hnd2, t2, td2, hall2, hdecls2, ht2, htd2⟩ := ih hInv1 h
      refine ⟨hInv2, ?_, fun hnd => hnd2 (hnd1 hnd), t1 ++ t2, td1 ++ td2, ?_, ?_, ?_, ?_⟩
      · intro a
        rw [hmem2 a, hmem1 a, List.map_cons, List.flatten_cons, List.mem_append]
        tauto
      · rw [hall2, hall1, List.append_assoc]
      · rw [hdecls2, hdecls1, List.append_assoc]
      · intro a ha
        rw [List.map_cons, List.flatten_cons]
        rcases List.mem_append.mp ha with ha | ha
        · obtain ⟨hin, hr⟩ := ht1 a ha
          exact ⟨List.mem_append_left _ hin, hr⟩
        · obtain ⟨hin, hr⟩ := ht2 a ha
          exact ⟨List.mem_append_right _ hin, hr⟩
      · intro d hd
        rw [List.map_cons, List.flatten_cons]
        rcases List.mem_append.mp hd with hd | hd
        · obtain ⟨nm, hin, he⟩ := htd1 d hd
          exact ⟨nm, List.mem_append_left _ hin, he⟩
        · obtain ⟨nm, hin, he⟩ := htd2 d hd
          exact ⟨nm, List.mem_append_right _ hin, he⟩

theorem generateShaders_ok_state {effects : List Effect} {g : GeneratedShader}
    (h : generateShaders effects = .ok g) :
    ∃ st, addBlocks initUniState (buildBlocks 0 effects) = .ok st ∧ g.uniformNames = st.all
      ∧ g.vertexSource =
          vertexSourceOf st.decls (effects.any Effect.isNoise) (buildBlocks 0 effects) := by
  unfold generateShaders at h
  cases hb : addBlocks initUniState (buildBlocks 0 effects) with
  | error e => rw [hb] at h; cases h
  | ok st =>
    rw [hb] at h
    cases h
    exact ⟨st, rfl, rfl, rfl⟩

theorem generateShaders_ok_disjoint {effects : List Effect} {g : GeneratedShader}
    (h : generateShaders effects = .ok g) :
    ∀ n ∈ declaredUniformNames effects, n ∉ reservedUniforms := by
  intro n hn hr
  obtain ⟨st, hb, -, -⟩ := generateShaders_ok_state h
  obtain ⟨e, he⟩ := addBlocks_error_of_mem (buildBlocks 0 effects) hn hr initUniState
  rw [hb] at he
  cases he

-- ── C3 ───────────────────────────────────────────────────────────────────────

/-- C3 (amended): whenever `generateShaders effects` succeeds, the key set of
the record returned by `extractUniformValues effects` matches the returned
`uniformNames` list with its first two entries (`u_time`, `u_resolution`)
removed — not the full `uniformNames` list, which always additionally
starts with those two engine-managed names. -/
theorem extract_keys_match_uniformNames (cosF sinF : ℚ → ℚ) (piVal : ℚ)
    (effects : List Effect) (g : GeneratedShader)
    (h : generateShaders effects = .ok g) (name : String) :
    name ∈ (extractUniformValues cosF sinF piVal effects).map Prod.fst ↔
      name ∈ g.uniformNames.drop 2 := by
  obtain ⟨st, hb, hnames, -⟩ := generateShaders_ok_state h
  have hdisj := generateShaders_ok_disjoint h
  obtain ⟨hInv, hmem, -, t, td, hall, -, ht, -⟩ :=
    addBlocks_ok_props (fun n => Iff.rfl) hb
  have hdrop : st.all.drop 2 = t := by
    rw [hall]
    rfl
  have hflatten : name ∈ t ↔ name ∈ declaredUniformNames effects := by
    constructor
    · intro hmt
      exact (ht name hmt).1
    · intro hms
      have : name ∈ st.all := (hmem name).mpr (Or.inr hms)
      rw [hall, List.mem_append] at this
      rcases this with hin | hin
      · exfalso
        apply hdisj name hms
        have : name ∈ initUniState.all := hin
        rcases List.mem_cons.mp this with rfl | h2
        · decide
        · rcases List.mem_cons.mp h2 with rfl | h3
          · decide
          · cases h3
      · exact hin
  rw [hnames, hdrop, hflatten]
  have := mem_keys_extractGo cosF sinF piVal effects 0 [] name
  simpa [extractUniformValues, declaredUniformNames] using this

theorem extract_keys_match_uniformNames_witness :
    ("u_fx0_freq" ∈ (extractUniformValues (fun x => x) (fun x => x) 3
        [Effect.noise none none none none]).map Prod.fst ↔
      "u_fx0_freq" ∈ (genOk [Effect.noise none none none none]).uniformNames.drop 2) ∧
    ("u_time" ∈ (extractUniformValues (fun x => x) (fun x => x) 3
        [Effect.noise none none none none]).map Prod.fst ↔
      "u_time" ∈ (genOk [Effect.noise none none none none]).uniformNames.drop 2) :=
  ⟨extract_keys_match_uniformNames (fun x => x) (fun x => x) 3
      [Effect.noise none none none none] (genOk [Effect.noise none none none none]) rfl _,
    extract_keys_match_uniformNames (fun x => x) (fun x => x) 3
      [Effect.noise none none none none] (genOk [Effect.noise none none none none]) rfl _⟩

/-- C3, counterexample to the claim as stated: for the empty effect list both
functions succeed, the extracted record is empty, yet `uniformNames` is
`[u_time, u_resolution]` — so the key set does not match `uniformNames`
exactly. -/
theorem extract_keys_counterexample :
    generateShaders [] = .ok (genOk []) ∧
    (genOk []).uniformNames = ["u_time", "u_resolution"] ∧
    (extractUniformValues (fun x => x) (fun x => x) 3 []).map Prod.fst = [] ∧
    "u_time" ∈ (genOk []).uniformNames ∧
    "u_time" ∉ ((extractUniformValues (fun x => x) (fun x => x) 3 []).map Prod.fst) := by
  refine ⟨rfl, rfl, rfl, ?_, ?_⟩
  · show "u_time" ∈ ["u_time", "u_resolution"]
    decide
  · show "u_time" ∉ ([] : List String)
    decide

set_option maxRecDepth 8192 in
/-- C9: on success the `uniformNames` list has no duplicates and starts with
`u_time` and `u_resolution`; concretely, two custom `glsl` effects declaring
the same parameter name do not cause an error — the name appears once in
`uniformNames` and its declaration appears exactly once in the vertex
source. -/
theorem uniformNames_nodup_reserved_first :
    (∀ (effects : List Effect) (g : GeneratedShader), generateShaders effects = .ok g →
      g.uniformNames.Nodup ∧ g.uniformNames.take 2 = ["u_time", "u_resolution"])
    ∧ (generateShaders dupEffects = .ok (genOk dupEffects)
      ∧ (genOk dupEffects).uniformNames = ["u_time", "u_resolution", "u_dup"]
      ∧ countOccs "uniform float u_dup;".data (genOk dupEffects).vertexSource.data = 1) := by
  constructor
  · intro effects g h
    obtain ⟨st, hb, hnames, -⟩ := generateShaders_ok_state h
    obtain ⟨-, -, hnd, t, td, hall, -, -, -⟩ :=
      addBlocks_ok_props (fun n => Iff.rfl) hb
    constructor
    · rw [hnames]
      exact hnd (by decide)
    · rw [hnames, hall]
      rfl
  · exact ⟨rfl, by decide, by decide⟩

theorem uniformNames_nodup_reserved_first_witness :
    (genOk dupEffects).uniformNames.Nodup ∧
    (genOk dupEffects).uniformNames.take 2 = ["u_time", "u_resolution"] :=
  uniformNames_nodup_reserved_first.1 dupEffects (genOk dupEffects) rfl

theorem countS_append (a b : String) : countS (a ++ b) = countS a + countS b := by
  simp [countS, List.count_append]

theorem countS_joinSep {sep : String} (hsep : countS sep = 0) :
    ∀ xs : List String, (∀ x ∈ xs, countS x = 0) → countS (joinSep sep xs) = 0
  | [], _ => by simp [joinSep, countS]
  | [x], hx => by simpa [joinSep] using hx x (by simp)
  | x :: y :: ys, hx => by
    have htail : countS (joinSep sep (y :: ys)) = 0 :=
      countS_joinSep hsep (y :: ys) (fun z hz => hx z (List.mem_cons_of_mem _ hz))
    have hhead : countS x = 0 := hx x (List.mem_cons_self ..)
    simp only [joinSep, countS_append]
    omega

theorem digitChar_isDigit {m : Nat} (h : m < 10) : (Nat.digitChar m).isDigit = true := by
  interval_cases m <;> decide

theorem toDigitsCore_isDigit :
    ∀ (fuel n : Nat) (ds : List Char), (∀ c ∈ ds, c.isDigit = true) →
      ∀ c ∈ Nat.toDigitsCore 10 fuel n ds, c.isDigit = true := by
  intro fuel
  induction fuel with
  | zero => intro n ds h c hc; exact h c hc
  | succ f ih =>
    intro n ds h c hc
    have hcons : ∀ c ∈ Nat.digitChar (n % 10) :: ds, c.isDigit = true := by
      intro c hc
      rcases List.mem_cons.mp hc with rfl | hmem
      · exact digitChar_isDigit (Nat.mod_lt n (by decide))
      · exact h c hmem
    simp only [Nat.toDigitsCore] at hc
    split at hc
    · exact hcons c hc
    · exact ih (n / 10) _ hcons c hc

theorem countS_repr (n : Nat) : countS (Nat.repr n) = 0 := by
  rw [countS, List.count_eq_zero]
  intro hmem
  have hdata : (Nat.repr n).data = Nat.toDigits 10 n := rfl
  rw [hdata] at hmem
  have := toDigitsCore_isDigit (n + 1) n [] (by simp) 'S' hmem
  simp at this

theorem countS_fxName (i : Nat) (sfx : String) (h : countS sfx = 0) :
    countS ("u_fx" ++ Nat.repr i ++ sfx) = 0 := by
  have h1 : countS "u_fx" = 0 := by decide
  simp [countS_append, h1, countS_repr, h]

theorem wave_pulse_blocks_clean (effects : List Effect)
    (h : ∀ e ∈ effects, e.isNoise = false ∧ e.isGlsl = false) :
    ∀ i, (∀ nm ∈ ((buildBlocks i effects).map (·.uniforms)).flatten, countS nm = 0)
      ∧ (∀ b ∈ buildBlocks i effects, countS b.glsl = 0) := by
  induction effects with
  | nil => intro i; simp [buildBlocks]
  | cons e rest ih =>
    intro i
    have htail := ih (fun e' he' => h e' (List.mem_cons_of_mem _ he')) (i + 1)
    have hhead := h e (List.mem_cons_self ..)
    have hblock : (∀ nm ∈ (buildBlock e i).uniforms, countS nm = 0)
        ∧ countS (buildBlock e i).glsl = 0 := by
      cases e with
      | noise frequency amplitude speed yScale => simp [Effect.isNoise] at hhead
      | wave direction propagation amplitude speed =>
        constructor
        · intro nm hnm
          simp only [buildBlock, waveBlock, List.mem_cons, List.not_mem_nil, or_false] at hnm
          rcases hnm with rfl | rfl | rfl | rfl | rfl <;>
            exact countS_fxName i _ (by decide)
        · simp only [buildBlock, waveBlock]
          simp only [countS_append, countS_repr]
          decide
      | pulse centerX centerY frequency amplitude speed =>
        constructor
        · intro nm hnm
          simp only [buildBlock, pulseBlock, List.mem_cons, List.not_mem_nil, or_false] at hnm
          rcases hnm with rfl | rfl | rfl | rfl | rfl <;>
            exact countS_fxName i _ (by decide)
        · simp only [buildBlock, pulseBlock]
          simp only [countS_append, countS_repr]
          decide
      | glsl params code => simp [Effect.isGlsl] at hhead
    constructor
    · intro nm hnm
      rw [show buildBlocks i (e :: rest) = buildBlock e i :: buildBlocks (i + 1) rest from rfl,
        List.map_cons, List.flatten_cons, List.mem_append] at hnm
      rcases hnm with hnm | hnm
      · exact hblock.1 nm hnm
      · exact htail.1 nm hnm
    · intro b hb
      rw [show buildBlocks i (e :: rest) = buildBlock e i :: buildBlocks (i + 1) rest from rfl,
        List.mem_cons] at hb
      rcases hb with rfl | hb
      · exact hblock.2
      · exact htail.2 b hb

-- ── C4 ───────────────────────────────────────────────────────────────────────

set_option maxRecDepth 16384 in
/-- C4 (amended): on success, (i) if at least one effect is a noise effect
the vertex source contains the simplex `snoise` body, and (ii) for effect
lists containing neither noise nor custom `glsl` effects the body is absent.
(The unrestricted converse of (i) fails: a custom `glsl` effect may smuggle
the body in through its caller-supplied code, see the counterexample.) -/
theorem vertexSource_snoise_iff_noise (effects : List Effect) (g : GeneratedShader)
    (h : generateShaders effects = .ok g) :
    ((∃ e ∈ effects, e.isNoise = true) → SIMPLEX_NOISE_GLSL.data <:+: g.vertexSource.data)
    ∧ ((∀ e ∈ effects, e.isNoise = false ∧ e.isGlsl = false) →
        ¬ SIMPLEX_NOISE_GLSL.data <:+: g.vertexSource.data) := by
  obtain ⟨st, hb, -, hv⟩ := generateShaders_ok_state h
  constructor
  · intro hex
    have hany : effects.any Effect.isNoise = true := List.any_eq_true.mpr hex
    rw [hv, hany]
    refine ⟨(VERTEX_HEADER ++ joinSep "\n" st.decls ++ "\n\n").data,
      ("\n\n" ++ VERTEX_MAIN
        ++ joinSep "\n" ((buildBlocks 0 effects).map (·.glsl)) ++ VERTEX_FOOTER).data, ?_⟩
    simp [vertexSourceOf, List.append_assoc]
  · intro hnone hinf
    have hany : effects.any Effect.isNoise = false := by
      rw [List.any_eq_false]
      intro e he
      simp [(hnone e he).1]
    obtain ⟨-, -, -, t, td, -, hdecls, -, htd⟩ :=
      addBlocks_ok_props (fun n => Iff.rfl) hb
    have hclean := wave_pulse_blocks_clean effects hnone 0
    have hdecls0 : ∀ d ∈ st.decls, countS d = 0 := by
      intro d hd
      rw [hdecls, List.mem_append] at hd
      rcases hd with hd | hd
      · rcases List.mem_cons.mp hd with rfl | hd'
        · decide
        · rcases List.mem_cons.mp hd' with rfl | hd2
          · decide
          · cases hd2
      · obtain ⟨nm, hnm, rfl⟩ := htd d hd
        have hnm0 : countS nm = 0 := hclean.1 nm hnm
        have hu : countS "uniform float " = 0 := by decide
        have hsemi : countS ";" = 0 := by decide
        simp [countS_append, hu, hnm0, hsemi]
    have hJ : countS (joinSep "\n" st.decls) = 0 :=
      countS_joinSep (by decide) _ hdecls0
    have hJB : countS (joinSep "\n" ((buildBlocks 0 effects).map (·.glsl))) = 0 := by
      refine countS_joinSep (by decide) _ ?_
      intro x hx
      obtain ⟨b, hbmem, rfl⟩ := List.mem_map.mp hx
      exact hclean.2 b hbmem
    have hv0 : countS g.vertexSource = 0 := by
      rw [hv, hany]
      simp only [vertexSourceOf, countS_append, hJ, hJB]
      decide
    have hle := List.IsInfix.count_le hinf 'S'
    have hS : countS SIMPLEX_NOISE_GLSL ≠ 0 := by decide
    rw [show (g.vertexSource.data.count 'S') = countS g.vertexSource from rfl, hv0] at hle
    exact hS (Nat.le_zero.mp hle)

theorem vertexSource_snoise_iff_noise_witness :
    SIMPLEX_NOISE_GLSL.data <:+: (genOk [Effect.noise none none none none]).vertexSource.data
    ∧ ¬ SIMPLEX_NOISE_GLSL.data <:+:
        (genOk [Effect.wave none none none none]).vertexSource.data :=
  ⟨(vertexSource_snoise_iff_noise [Effect.noise none none none none] _ rfl).1
      ⟨Effect.noise none none none none, by decide, rfl⟩,
    (vertexSource_snoise_iff_noise [Effect.wave none none none none] _ rfl).2
      (by intro e he; rcases List.mem_singleton.mp he with rfl; exact ⟨rfl, rfl⟩)⟩

set_option maxRecDepth 16384 in
/-- C4, counterexample to the claim as stated: a list with no noise effect
whose generated vertex source nevertheless contains the `snoise` body,
because a custom `glsl` effect's code is spliced in verbatim. -/
theorem vertexSource_snoise_counterexample :
    generateShaders snoiseInjection = .ok (genOk snoiseInjection)
    ∧ snoiseInjection.any Effect.isNoise = false
    ∧ SIMPLEX_NOISE_GLSL.data <:+: (genOk snoiseInjection).vertexSource.data := by
  refine ⟨rfl, rfl, ?_⟩
  have hv : (genOk snoiseInjection).vertexSource =
      VERTEX_HEADER ++ joinSep "\n" initUniState.decls ++ "\n\n" ++ "" ++ "\n\n"
        ++ VERTEX_MAIN
        ++ ("\n  \x7b // custom glsl effect " ++ Nat.repr 0
            ++ "\n    float time = u_time;\n    vec2 d = vec2(0.0);\n    "
            ++ SIMPLEX_NOISE_GLSL ++ "\n    displacement += d;\n  \x7d")
        ++ VERTEX_FOOTER := rfl
  rw [hv]
  refine ⟨(VERTEX_HEADER ++ joinSep "\n" initUniState.decls ++ "\n\n" ++ "" ++ "\n\n"
      ++ VERTEX_MAIN ++ ("\n  \x7b // custom glsl effect " ++ Nat.repr 0
        ++ "\n    float time = u_time;\n    vec2 d = vec2(0.0);\n    ")).data,
    ("\n    displacement += d;\n  \x7d" ++ VERTEX_FOOTER).data, ?_⟩
  simp [List.append_assoc]

-- ── Lifecycle helper lemmas ──────────────────────────────────────────────────

theorem startAnimationLoop_cases (env : Env) (s : EngineState) :
    startAnimationLoop env s = s ∨
      (startAnimationLoop env s = animateFrame env s ∧ s.animationFrameId = none) := by
  unfold startAnimationLoop
  split
  · exact Or.inl rfl
  · split
    · exact Or.inl rfl
    · split
      · exact Or.inl rfl
      · rename_i hf
        refine Or.inr ⟨rfl, ?_⟩
        cases h : s.animationFrameId with
        | none => rfl
        | some id => rw [h] at hf; simp at hf

theorem animateFrame_run (env : Env) (s : EngineState)
    (hv : s.isVisible = true) (hd : s.destroyed = false) :
    (animateFrame env s).animationFrameId = some s.sched.nextId
    ∧ (animateFrame env s).destroyed = s.destroyed
    ∧ (animateFrame env s).sched.active = s.sched.active ++ [s.sched.nextId] := by
  unfold animateFrame
  rw [if_neg (by simp [hv, hd])]
  exact ⟨rfl, rfl, rfl⟩

theorem update_isVisible_self (t : EngineState) (hv : t.isVisible = true) :
    ({ t with isVisible := true } : EngineState) = t := by
  cases t
  simp_all

theorem start_after_startAnimationLoop (env : Env) (t : EngineState)
    (hd : t.destroyed = false) (hf : t.animationFrameId = none) (hv : t.isVisible = true) :
    start env (startAnimationLoop env t) = startAnimationLoop env t := by
  rcases startAnimationLoop_cases env t with hr | ⟨hr, -⟩
  · rw [hr]
    unfold start
    rw [if_neg (by simp [hd, hf])]
    rw [update_isVisible_self t hv, hr]
  · obtain ⟨hfid, -, -⟩ := animateFrame_run env t hv hd
    rw [hr]
    unfold start
    rw [if_pos (Or.inr (by rw [hfid]; rfl))]

theorem start_start (env : Env) (s : EngineState) :
    start env (start env s) = start env s := by
  by_cases hguard : s.destroyed = true ∨ s.animationFrameId.isSome
  · have hs : start env s = s := by unfold start; rw [if_pos hguard]
    rw [hs, hs]
  · push_neg at hguard
    obtain ⟨hdt, hft⟩ := hguard
    have hd : s.destroyed = false := by revert hdt; cases s.destroyed <;> simp
    have hf : s.animationFrameId = none := by
      revert hft; cases s.animationFrameId <;> simp
    have hstart : start env s = startAnimationLoop env { s with isVisible := true } := by
      unfold start
      rw [if_neg (by simp [hd, hf])]
    rw [hstart]
    exact start_after_startAnimationLoop env { s with isVisible := true } hd hf rfl

theorem start_sched_growth (env : Env) (s : EngineState) :
    (start env s).sched.active = s.sched.active ∨
      (start env s).sched.active = s.sched.active ++ [s.sched.nextId] := by
  unfold start
  split
  · exact Or.inl rfl
  · rcases startAnimationLoop_cases env { s with isVisible := true } with hr | ⟨hr, -⟩
    · rw [hr]; exact Or.inl rfl
    · rw [hr]
      obtain ⟨-, -, hsched⟩ :=
        animateFrame_run env { s with isVisible := true } rfl (by rename_i h; simpa using (not_or.mp h).1)
      rw [hsched]
      exact Or.inr rfl

theorem destroy_fields (s : EngineState) :
    (destroy s).destroyed = true ∧ (destroy s).animationFrameId = none
    ∧ (destroy s).isVisible = false ∧ (destroy s).particles = [] := by
  unfold destroy stop
  cases hf : s.animationFrameId <;> simp [hf]

theorem destroy_destroy (s : EngineState) : destroy (destroy s) = destroy s := by
  unfold destroy stop
  cases hf : s.animationFrameId <;> simp [hf]

-- ── Successful particle creation ─────────────────────────────────────────────

theorem gridCells_word_isSome (env : Env) (cfg : WordWaveOptions) (w h : ℚ)
    (hw : cfg.words ≠ []) :
    ∀ cell ∈ gridCells env cfg w h, cell.word.isSome := by
  intro cell hcell
  unfold gridCells at hcell
  rw [List.mem_flatten] at hcell
  obtain ⟨rowlist, hrow, hcell⟩ := hcell
  rw [List.mem_map] at hrow
  obtain ⟨row, -, rfl⟩ := hrow
  rw [List.mem_map] at hcell
  obtain ⟨col, -, rfl⟩ := hcell
  have hlen : 0 < cfg.words.length := List.length_pos.mpr hw
  have hidx : (row * (⌈w / cfg.spacingX⌉ + 2).toNat + col) % cfg.words.length
      < cfg.words.length := Nat.mod_lt _ hlen
  simp only [List.getElem?_eq_getElem hidx, Option.isSome_some]

theorem charItems_ok (env : Env) :
    ∀ cells : List GridCell, (∀ cell ∈ cells, cell.word.isSome) →
      ∃ items, charItems env cells = .ok items := by
  intro cells
  induction cells with
  | nil => intro _; exact ⟨[], rfl⟩
  | cons cell rest ih =>
    intro h
    obtain ⟨items, hitems⟩ := ih (fun c hc => h c (List.mem_cons_of_mem _ hc))
    cases hword : cell.word with
    | none =>
      have := h cell (List.mem_cons_self ..)
      rw [hword] at this
      cases this
    | some word =>
      refine ⟨charWalk env cell word.data cell.wordStartX ++ items, ?_⟩
      unfold charItems
      rw [hword, hitems]

-- ── C6 ───────────────────────────────────────────────────────────────────────

/-- C6 (code evaluated at the failing input): a missing `words` option (or a
missing options object) resolves to `DEFAULT_WORDS`, but an explicitly
supplied empty word list stays empty — `?? ` replaces only a nullish value,
so the documented fallback is bypassed, contradicting the claim and the
`DEFAULT_WORDS` doc comment ("shown when no words are supplied"). -/
theorem default_words_fallback :
    (resolveConfig none).words = DEFAULT_WORDS
    ∧ (resolveConfig (some {})).words = DEFAULT_WORDS
    ∧ DEFAULT_WORDS = ["No", "Words", "Supplied!"]
    ∧ (resolveConfig (some { words := some [] })).words = []
    ∧ ([] : List String) ≠ DEFAULT_WORDS :=
  ⟨rfl, rfl, rfl, rfl, by decide⟩

-- ── C10 ──────────────────────────────────────────────────────────────────────

/-- C10: for all (rational-modelled) inputs `x`, `y`, provided
`gridCols ≥ 2`, `gridRows ≥ 2` and `noiseGrid.length = gridCols * gridRows`,
the clamped cell indices satisfy `gx0 ∈ [0, gridCols-2]`,
`gy0 ∈ [0, gridRows-2]`, and all four indices read by `sampleNoiseGrid`
(`i`, `i+1`, `i+gridCols`, `i+gridCols+1`) are in bounds. -/
theorem sampleNoiseGrid_in_bounds (s : EngineState) (x y : ℚ)
    (hc : 2 ≤ s.gridCols) (hr : 2 ≤ s.gridRows)
    (hlen : s.noiseGrid.length = s.gridCols * s.gridRows) :
    (0 ≤ sampleGx0 s x ∧ sampleGx0 s x ≤ (s.gridCols : Int) - 2)
    ∧ (0 ≤ sampleGy0 s y ∧ sampleGy0 s y ≤ (s.gridRows : Int) - 2)
    ∧ sampleIdx s x y < s.noiseGrid.length
    ∧ sampleIdx s x y + 1 < s.noiseGrid.length
    ∧ sampleIdx s x y + s.gridCols < s.noiseGrid.length
    ∧ sampleIdx s x y + s.gridCols + 1 < s.noiseGrid.length := by
  have hcols2 : (2 : Int) ≤ (s.gridCols : Int) := by exact_mod_cast hc
  have hrows2 : (2 : Int) ≤ (s.gridRows : Int) := by exact_mod_cast hr
  have hgx0 : 0 ≤ sampleGx0 s x := le_max_left 0 _
  have hgy0 : 0 ≤ sampleGy0 s y := le_max_left 0 _
  have hgx1 : sampleGx0 s x ≤ (s.gridCols : Int) - 2 :=
    max_le (by linarith) (min_le_right _ _)
  have hgy1 : sampleGy0 s y ≤ (s.gridRows : Int) - 2 :=
    max_le (by linarith) (min_le_right _ _)
  have hnn : 0 ≤ sampleGy0 s y * (s.gridCols : Int) + sampleGx0 s x :=
    add_nonneg (mul_nonneg hgy0 (by linarith)) hgx0
  have hmul : sampleGy0 s y * (s.gridCols : Int)
      ≤ ((s.gridRows : Int) - 2) * (s.gridCols : Int) :=
    mul_le_mul_of_nonneg_right hgy1 (by linarith)
  have hmul' : sampleGy0 s y * (s.gridCols : Int)
      ≤ (s.gridRows : Int) * (s.gridCols : Int) - 2 * (s.gridCols : Int) := by
    rw [sub_mul] at hmul
    exact hmul
  have hidx : (sampleIdx s x y : Int) = sampleGy0 s y * (s.gridCols : Int) + sampleGx0 s x :=
    Int.toNat_of_nonneg hnn
  have hkey : (sampleIdx s x y : Int) + (s.gridCols : Int) + 1
      < (s.gridCols : Int) * (s.gridRows : Int) := by
    rw [hidx]
    nlinarith
  have hfinal : sampleIdx s x y + s.gridCols + 1 < s.noiseGrid.length := by
    rw [hlen]
    exact_mod_cast hkey
  refine ⟨⟨hgx0, hgx1⟩, ⟨hgy0, hgy1⟩, by omega, by omega, by omega, hfinal⟩

theorem sampleNoiseGrid_in_bounds_witness :
    (0 ≤ sampleGx0 c10State 1000 ∧ sampleGx0 c10State 1000 ≤ (c10State.gridCols : Int) - 2)
    ∧ (0 ≤ sampleGy0 c10State (-7) ∧ sampleGy0 c10State (-7) ≤ (c10State.gridRows : Int) - 2)
    ∧ sampleIdx c10State 1000 (-7) < c10State.noiseGrid.length
    ∧ sampleIdx c10State 1000 (-7) + 1 < c10State.noiseGrid.length
    ∧ sampleIdx c10State 1000 (-7) + c10State.gridCols < c10State.noiseGrid.length
    ∧ sampleIdx c10State 1000 (-7) + c10State.gridCols + 1 < c10State.noiseGrid.length :=
  sampleNoiseGrid_in_bounds c10State 1000 (-7) (by decide) (by decide) (by decide)

-- ── C8 ───────────────────────────────────────────────────────────────────────

theorem mergeSort_opacity_pairwise (l : List Particle) :
    (l.mergeSort (fun a b => decide (a.opacity ≤ b.opacity))).Pairwise
      (fun a b => a.opacity ≤ b.opacity) := by
  have hsorted := @List.sorted_mergeSort Particle
    (fun a b : Particle => decide (a.opacity ≤ b.opacity))
    (fun a b c h1 h2 => by
      simp only [decide_eq_true_eq] at *
      exact le_trans h1 h2)
    (fun a b => by
      simp only [Bool.or_eq_true, decide_eq_true_eq]
      exact le_total a.opacity b.opacity)
    l
  exact hsorted.imp (fun hab => by simpa using hab)

/-- C8: after every completed run of `createParticles` the particle list is
sorted by opacity ascending, every particle's sprite comes from the atlas
lookup (items whose text unit misses the lookup are skipped rather than
erroring), and with an empty lookup the run still succeeds with no
particles. -/
theorem createParticles_sorted_skips (env : Env) (s0 s' : EngineState)
    (h : createParticles env s0 = .ok s') :
    s'.particles.Pairwise (fun a b => a.opacity ≤ b.opacity)
    ∧ (∀ p ∈ s'.particles, ∃ t, glyphLookup s0.glyphs (some t) = some p.glyph)
    ∧ (s0.glyphs = [] → s'.particles = []) := by
  simp only [createParticles] at h
  split at h
  · rw [Except.ok.injEq] at h
    subst h
    simp
  · split at h
    · rw [Except.ok.injEq] at h
      subst h
      simp
    · simp only [createParticlesCore] at h
      split at h
      · exact absurd h (by simp)
      · rename_i items hitems
        rw [Except.ok.injEq] at h
        subst h
        refine ⟨mergeSort_opacity_pairwise _, ?_, ?_⟩
        · intro p hp
          rw [List.mem_mergeSort, List.mem_filterMap] at hp
          obtain ⟨it, hit, heq⟩ := hp
          rw [Option.map_eq_some'] at heq
          obtain ⟨g, hg, hpe⟩ := heq
          cases ht : it.text with
          | none =>
            rw [ht] at hg
            simp [glyphLookup] at hg
          | some t =>
            rw [ht] at hg
            refine ⟨t, ?_⟩
            rw [hg]
            subst hpe
            rfl
        · intro hglyphs
          show List.mergeSort _ _ = []
          rw [show (List.filterMap _ items) = ([] : List Particle) from ?_]
          · simp
          · rw [List.filterMap_eq_nil_iff]
            intro it hit
            cases ht : it.text with
            | none => simp [glyphLookup, ht]
            | some t => simp [glyphLookup, ht, hglyphs]

-- ── C7 ───────────────────────────────────────────────────────────────────────

theorem setupCanvas_preserves (env : Env) (s : EngineState) :
    (setupCanvas env s).config = s.config
    ∧ (setupCanvas env s).hasMeasureCtx = s.hasMeasureCtx := by
  unfold setupCanvas
  rcases env.parentRect with - | ⟨w, hh⟩ <;> exact ⟨rfl, rfl⟩

theorem createParticles_ok (env : Env) (t : EngineState)
    (hcond : t.config.words ≠ [] ∨ t.config.mode = Mode.word) :
    ∃ s', createParticles env t = .ok s' := by
  simp only [createParticles, createParticlesCore]
  split
  · exact ⟨_, rfl⟩
  · split
    · exact ⟨_, rfl⟩
    · rename_i w hh hrect
      cases hm : t.config.mode with
      | word => exact ⟨_, rfl⟩
      | character =>
        have hw : t.config.words ≠ [] := by
          rcases hcond with hw | hm'
          · exact hw
          · rw [hm] at hm'; cases hm'
        obtain ⟨items, hitems⟩ := charItems_ok env (gridCells env t.config w hh)
          (gridCells_word_isSome env t.config w hh hw)
        rw [hitems]
        exact ⟨_, rfl⟩

/-- C7 (amended): the lifecycle methods are total functions of the engine
state (no-throw), `start` is idempotent and schedules at most one loop,
`stop` when not running only clears the visibility flag, `destroy` twice is
a no-op the second time, `start`/`resize` after `destroy` are no-ops — and
`resize` completes without error provided the configured word list is
nonempty or the mode is `word` (the empty-word-list character-mode corner
throws, see the counterexample). -/
theorem lifecycle_properties (env : Env) (s : EngineState) :
    start env (start env (start env s)) = start env s
    ∧ (s.sched.active = [] → (start env s).sched.active.length ≤ 1)
    ∧ (s.animationFrameId = none → stop s = { s with isVisible := false })
    ∧ destroy (destroy s) = destroy s
    ∧ start env (destroy s) = destroy s
    ∧ resize env (destroy s) = .ok (destroy s)
    ∧ ((s.config.words ≠ [] ∨ s.config.mode = Mode.word) →
        ∃ s', resize env s = .ok s') := by
  refine ⟨?_, ?_, ?_, destroy_destroy s, ?_, ?_, ?_⟩
  · rw [start_start env s]
    exact start_start env s
  · intro hempty
    rcases start_sched_growth env s with hg | hg <;> rw [hg, hempty] <;> simp
  · intro hf
    simp [stop, hf]
  · have hd := (destroy_fields s).1
    unfold start
    rw [if_pos (Or.inl hd)]
  · have hd := (destroy_fields s).1
    unfold resize
    rw [if_pos hd]
  · intro hcond
    by_cases hd : s.destroyed = true
    · exact ⟨s, by unfold resize; rw [if_pos hd]⟩
    · have hd' : s.destroyed = false := by revert hd; cases s.destroyed <;> simp
      unfold resize
      rw [if_neg (by simp [hd'])]
      exact createParticles_ok env (setupCanvas env s)
        (by rw [(setupCanvas_preserves env s).1]; exact hcond)

theorem lifecycle_properties_witness :
    start hostEnv (start hostEnv (start hostEnv (baseState ["hi"])))
      = start hostEnv (baseState ["hi"])
    ∧ (start hostEnv (baseState ["hi"])).sched.active.length ≤ 1
    ∧ stop (baseState ["hi"]) = { baseState ["hi"] with isVisible := false }
    ∧ destroy (destroy (baseState ["hi"])) = destroy (baseState ["hi"])
    ∧ start hostEnv (destroy (baseState ["hi"])) = destroy (baseState ["hi"])
    ∧ resize hostEnv (destroy (baseState ["hi"])) = .ok (destroy (baseState ["hi"]))
    ∧ ∃ s', resize hostEnv (baseState ["hi"]) = .ok s' := by
  obtain ⟨h1, h2, h3, h4, h5, h6, h7⟩ := lifecycle_properties hostEnv (baseState ["hi"])
  exact ⟨h1, h2 rfl, h3 rfl, h4, h5, h6, h7 (Or.inl (by decide))⟩

theorem gridCells_words_none (env : Env) (cfg : WordWaveOptions)
    (hw : cfg.words = []) (w h : ℚ) :
    ∀ cell ∈ gridCells env cfg w h, cell.word = none := by
  intro cell hcell
  unfold gridCells at hcell
  rw [List.mem_flatten] at hcell
  obtain ⟨rowlist, hrow, hcell⟩ := hcell
  rw [List.mem_map] at hrow
  obtain ⟨row, -, rfl⟩ := hrow
  rw [List.mem_map] at hcell
  obtain ⟨col, -, rfl⟩ := hcell
  simp [hw]

theorem gridCells_ne_nil (env : Env) (cfg : WordWaveOptions) (w h : ℚ)
    (hc : 0 < (⌈w / cfg.spacingX⌉ + 2).toNat) (hr : 0 < (⌈h / cfg.spacingY⌉ + 2).toNat) :
    gridCells env cfg w h ≠ [] := by
  intro hnil
  unfold gridCells at hnil
  rw [List.flatten_eq_nil_iff] at hnil
  have h0 : (0 : Nat) ∈ List.range (⌈h / cfg.spacingY⌉ + 2).toNat :=
    List.mem_range.mpr hr
  have := hnil _ (List.mem_map_of_mem _ h0)
  rw [List.map_eq_nil_iff, List.range_eq_nil] at this
  omega

theorem charItems_error_of_none (env : Env) (cells : List GridCell)
    (hne : cells ≠ []) (hall : ∀ cell ∈ cells, cell.word = none) :
    charItems env cells = .error "TypeError: word is not iterable" := by
  cases cells with
  | nil => exact absurd rfl hne
  | cons cell rest =>
    unfold charItems
    rw [hall cell (List.mem_cons_self ..)]

/-- C7, counterexample to the claim as stated: on an engine whose (accepted)
word list is empty, in character mode, with a measurement context and an
attached parent, `resize()` throws a `TypeError` — `words[NaN]` is
`undefined` and `for (const char of word)` is not iterable — instead of
being a safe no-op. -/
theorem createParticles_to_core (env : Env) (t : EngineState) (w h : ℚ)
    (hm : t.hasMeasureCtx = true) (hrect : env.parentRect = some (w, h)) :
    createParticles env t = createParticlesCore env { t with particles := [] } w h := by
  simp only [createParticles]
  rw [if_neg (by simp [hm]), hrect]

theorem createParticlesCore_char_error (env : Env) (t : EngineState) (w h : ℚ)
    (e : String) (hmode : t.config.mode = Mode.character)
    (herr : charItems env (gridCells env t.config w h) = .error e) :
    createParticlesCore env t w h = .error e := by
  simp only [createParticlesCore]
  rw [hmode, herr]

theorem resize_empty_words_counterexample :
    (baseState []).destroyed = false
    ∧ (baseState []).config.mode = Mode.character
    ∧ resize hostEnv (baseState []) = .error "TypeError: word is not iterable" := by
  refine ⟨rfl, rfl, ?_⟩
  show createParticles hostEnv (setupCanvas hostEnv (baseState [])) = _
  rw [createParticles_to_core hostEnv (setupCanvas hostEnv (baseState [])) 100 100 rfl rfl]
  apply createParticlesCore_char_error hostEnv _ 100 100 _ rfl
  apply charItems_error_of_none
  · apply gridCells_ne_nil
    · show 0 < (⌈(100 : ℚ) / 90⌉ + 2).toNat
      have hnn : (0 : Int) ≤ ⌈(100 : ℚ) / 90⌉ := Int.ceil_nonneg (by positivity)
      omega
    · show 0 < (⌈(100 : ℚ) / 20⌉ + 2).toNat
      have hnn : (0 : Int) ≤ ⌈(100 : ℚ) / 20⌉ := Int.ceil_nonneg (by positivity)
      omega
  · exact gridCells_words_none hostEnv _ rfl 100 100

theorem createParticles_sorted_skips_witness :
    ({ measurelessState with particles := [] } : EngineState).particles.Pairwise
      (fun a b => a.opacity ≤ b.opacity)
    ∧ (∀ p ∈ ({ measurelessState with particles := [] } : EngineState).particles,
        ∃ t, glyphLookup measurelessState.glyphs (some t) = some p.glyph)
    ∧ (measurelessState.glyphs = [] →
        ({ measurelessState with particles := [] } : EngineState).particles = []) :=
  createParticles_sorted_skips hostEnv measurelessState
    { measurelessState with particles := [] } rfl

end WordWave
